import Mathlib

/-!
Verification of the FastqBLAST pipeline core (src/FastqBLAST.py): the read
sampler (`random_sample`), the quality end-trimmer (`trim_ends`), the BLAST
result parser (`blast_to_dict`), the metadata merge (`fetch_to_dict`) and the
report assembler (`tabular_report`), shallowly embedded over lists with
machine text modelled as `List Char`, Python floats restricted to the exact
rational values that occur, and fallible code returning `Except`.
-/

namespace FastqBLAST

/-- Failure modes of the embedded pipeline.  `keyError` models a Python
`KeyError` (missing dictionary key), `indexError` a Python `IndexError`,
`invalidSampleSize` the two `sys.exit()` calls in `random_sample`
(lines 97-103), and `emptySearchResult` the `sys.exit()` in `blast_to_dict`
(lines 221-225). -/
inductive Err where
  | keyError
  | indexError
  | invalidSampleSize
  | emptySearchResult
deriving DecidableEq, Repr

/-- One entry of the two-level `sample_dict` built by `fastq_to_dict`
(lines 109-130): the dictionary key (`header`, the fastq header line up to the
first tab, including its leading `@`) together with the inner keys
`sequence`, `ascii` and `phred`.  The keys `trimmed_phred` and
`trimmed_sequence` are added later by `trim_ends`, hence are `Option`s that
start out `none`. -/
structure SampleRecord where
  header : List Char
  sequence : List Char
  ascii : List Char
  phred : List Int
  trimmed_phred : Option (List Int) := none
  trimmed_sequence : Option (List Char) := none
deriving DecidableEq, Repr

/-- Index at which the leading loop of `trim_ends` (lines 145-151) stops:
the first position whose score is not below the threshold. -/
def findFirstGE (threshold : Int) (scores : List Int) : Option Nat :=
  scores.findIdx? (fun q => decide (threshold ≤ q))

/-- Index at which the trailing loop of `trim_ends` (lines 152-158) stops:
the last position, over the raw scores, whose score is not below the
threshold (the loop iterates `reversed(list(enumerate(phred)))`). -/
def findLastGE (threshold : Int) (scores : List Int) : Option Nat :=
  match scores.reverse.findIdx? (fun q => decide (threshold ≤ q)) with
  | some j => some (scores.length - 1 - j)
  | none => none

/-- The leading-end loop of `trim_ends` (lines 145-151): on the first score
meeting `leadingQthreshold` it sets `trimmed_phred`/`trimmed_sequence` to the
tails of the raw lists from that position and breaks; if no score qualifies
the record is left unchanged. -/
def leadingTrim (r : SampleRecord) (leadingQthreshold : Int) : SampleRecord :=
  match findFirstGE leadingQthreshold r.phred with
  | some base =>
      { r with trimmed_phred := some (r.phred.drop base),
               trimmed_sequence := some (r.sequence.drop base) }
  | none => r

/-- Per-record body of `trim_ends` (lines 133-159).  The trailing loop scans
the *raw* `phred` list in reverse and, at the last position `base` meeting
`trailingQthreshold`, slices the already-set `trimmed_phred` and
`trimmed_sequence` with `[:base+1]` — reading those keys raises `KeyError`
when the leading loop never set them and the record did not already carry
them. -/
def trim_ends (r : SampleRecord) (leadingQthreshold trailingQthreshold : Int) :
    Except Err SampleRecord :=
  let r1 := leadingTrim r leadingQthreshold
  match findLastGE trailingQthreshold r.phred with
  | some base =>
      match r1.trimmed_phred, r1.trimmed_sequence with
      | some tp, some ts =>
          .ok { r1 with trimmed_phred := some (tp.take (base + 1)),
                        trimmed_sequence := some (ts.take (base + 1)) }
      | _, _ => .error .keyError
  | none => .ok r1

/-- Modelled from the spec's words (§4.3), for comparison with `trim_ends`:
drop everything before the first score meeting the leading threshold, then —
over the already-leading-trimmed scores — keep everything up to the last
score meeting the trailing threshold. -/
def specTrimScores (leadingQthreshold trailingQthreshold : Int)
    (phred : List Int) : Option (List Int) :=
  match findFirstGE leadingQthreshold phred with
  | none => none
  | some i =>
      let led := phred.drop i
      match findLastGE trailingQthreshold led with
      | some b => some (led.take (b + 1))
      | none => some led

/-- Claim C1 (status: code_bug).  The code slices the already-leading-trimmed
lists with an index taken from the *untrimmed* score list: on the record with
scores `[10, 30, 5]` and both thresholds 20, `trim_ends` keeps
`trimmed_phred = [30, 5]` — the trailing base of quality 5 < 20 survives —
whereas the claim's rule (formalised by `specTrimScores`, ending at the last
position over the already-leading-trimmed scores whose score meets the
trailing threshold) yields `[30]`. -/
theorem trim_ends_trailing_keeps_low_quality_base :
    trim_ends ⟨"@r".data, "ABC".data, "abc".data, [10, 30, 5], none, none⟩ 20 20
      = .ok ⟨"@r".data, "ABC".data, "abc".data, [10, 30, 5],
             some [30, 5], some "BC".data⟩
    ∧ specTrimScores 20 20 [10, 30, 5] = some [30]
    ∧ ([30, 5] : List Int) ≠ [30] := by
  refine ⟨rfl, rfl, by decide⟩

/-- Claim C7 (status: code_bug).  On a record whose every score is below the
leading threshold but where some score meets the trailing threshold
(scores `[10]`, leading 20, trailing 5), the trailing loop reads the never-set
`trimmed_phred` key and `trim_ends` raises `KeyError` instead of leaving the
trimmed fields unset and returning normally, so the record never reaches the
report. -/
theorem trim_ends_keyerror_all_below_leading :
    trim_ends ⟨"@r".data, "A".data, "a".data, [10], none, none⟩ 20 5
      = .error .keyError := rfl

/-- Claim C9 (status: confirmed).  Trimming is idempotent: whenever
`trim_ends` succeeds, running it again on its output with the same thresholds
returns that output unchanged. -/
theorem trim_ends_idempotent (r r' : SampleRecord) (lq tq : Int)
    (h : trim_ends r lq tq = .ok r') : trim_ends r' lq tq = .ok r' := by
  unfold trim_ends leadingTrim at h ⊢
  cases hf : findFirstGE lq r.phred with
  | some i =>
    cases hl : findLastGE tq r.phred with
    | some b =>
      simp only [hf, hl] at h
      injection h with h
      subst h
      simp [hf, hl]
    | none =>
      simp only [hf, hl] at h
      injection h with h
      subst h
      simp [hf, hl]
  | none =>
    cases hl : findLastGE tq r.phred with
    | some b =>
      simp only [hf, hl] at h
      cases htp : r.trimmed_phred with
      | some tp =>
        cases hts : r.trimmed_sequence with
        | some ts =>
          simp only [htp, hts] at h
          injection h with h
          subst h
          simp [hf, hl, List.take_take]
        | none => simp [htp, hts] at h
      | none => simp [htp] at h
    | none =>
      simp only [hf, hl] at h
      injection h with h
      subst h
      simp [hf, hl]

/-- Concrete instantiation of `trim_ends_idempotent`: trimming the record
with scores `[25, 10]` at thresholds 20/20 yields trimmed scores `[25]`, and
re-trimming that output returns it unchanged. -/
theorem trim_ends_idempotent_witness :
    trim_ends ⟨"@x".data, "AB".data, "ab".data, [25, 10], none, none⟩ 20 20
      = .ok ⟨"@x".data, "AB".data, "ab".data, [25, 10], some [25], some "A".data⟩
    ∧ trim_ends ⟨"@x".data, "AB".data, "ab".data, [25, 10], some [25], some "A".data⟩ 20 20
      = .ok ⟨"@x".data, "AB".data, "ab".data, [25, 10], some [25], some "A".data⟩ :=
  ⟨rfl, trim_ends_idempotent
    ⟨"@x".data, "AB".data, "ab".data, [25, 10], none, none⟩
    ⟨"@x".data, "AB".data, "ab".data, [25, 10], some [25], some "A".data⟩
    20 20 rfl⟩

/-- Python's `int()` applied to a (here exactly-represented) float: truncation
toward zero. -/
def pyInt (q : ℚ) : ℤ := if q < 0 then ⌈q⌉ else ⌊q⌋

/-- Line 96 of `random_sample`:
`sample_size = n_absolute if n_percent == 0 else int(n_percent*num_sequences/100)`. -/
def sample_size_of (n_absolute : ℤ) (n_percent : ℚ) (num_sequences : ℕ) : ℤ :=
  if n_percent = 0 then n_absolute else pyInt (n_percent * num_sequences / 100)

/-- Contract of Python's `random.sample(range(0, N), k)`: any value it can
return is a duplicate-free list of `k` indices below `N`. The list `sel` is
the nondeterministic choice threaded into the embedded `random_sample`. -/
def validChoice (N k : ℕ) (sel : List ℕ) : Prop :=
  sel.Nodup ∧ sel.length = k ∧ ∀ x ∈ sel, x < N

instance (N k : ℕ) (sel : List ℕ) : Decidable (validChoice N k sel) := by
  unfold validChoice; infer_instance

/-- Embedding of `random_sample` (lines 80-106) with the file I/O abstracted to its
record count `num_sequences` and the call to `random.sample` abstracted to
the choice `sel` it returns: compute the sample size (line 96), `sys.exit()`
when it exceeds the population (lines 97-100) or is zero (lines 101-103),
otherwise return the chosen indices each scaled by the 4-line record stride
(line 105). -/
def random_sample (num_sequences : ℕ) (n_absolute : ℤ) (n_percent : ℚ)
    (sel : List ℕ) : Except Err (List ℕ) :=
  let sample_size := sample_size_of n_absolute n_percent num_sequences
  if sample_size > (num_sequences : ℤ) then .error .invalidSampleSize
  else if sample_size = 0 then .error .invalidSampleSize
  else .ok (sel.map (fun x => x * 4))

/-- Modelled from the spec's words (§4.1), for comparison with
`sample_size_of`: `round(requested_percent * total_count / 100)` if
`requested_percent > 0`, else `requested_absolute`. -/
def effective_size_spec (requested_absolute : ℤ) (requested_percent : ℚ)
    (total_count : ℕ) : ℤ :=
  if 0 < requested_percent then round (requested_percent * total_count / 100)
  else requested_absolute

/-- Claim C4 counterexample (status: corrected).  At `total_count = 4`,
`requested_absolute = 9`, `requested_percent = 40` the code computes
`int(40*4/100) = int(1.6) = 1`, not `round(1.6) = 2` as the claim states. -/
theorem sample_size_truncates_not_rounds :
    sample_size_of 9 40 4 = 1 ∧ effective_size_spec 9 40 4 = 2 ∧ (1 : ℤ) ≠ 2 := by
  refine ⟨?_, ?_, by decide⟩
  · unfold sample_size_of pyInt
    norm_num
  · unfold effective_size_spec
    rw [if_pos (by norm_num), round_eq]
    norm_num

/-- Claim C4 as amended (status: corrected).  For non-negative percent
requests the effective sample size is the *floor* (Python `int()`
truncation) of `requested_percent * total_count / 100` when the percent is
positive, and `requested_absolute` otherwise. -/
theorem sample_size_eq_floor (num_sequences : ℕ) (n_absolute : ℤ) (n_percent : ℚ)
    (hp : 0 ≤ n_percent) :
    sample_size_of n_absolute n_percent num_sequences
      = if 0 < n_percent then ⌊n_percent * num_sequences / 100⌋ else n_absolute := by
  unfold sample_size_of pyInt
  rcases eq_or_lt_of_le hp with h0 | h0
  · simp [← h0]
  · have hne : n_percent ≠ 0 := ne_of_gt h0
    have hnonneg : ¬ (n_percent * (num_sequences : ℚ) / 100 < 0) := by
      push_neg
      positivity
    simp [hne, h0, hnonneg]

/-- Concrete instantiation of `sample_size_eq_floor` at
`num_sequences = 4`, `n_absolute = 9`, `n_percent = 40`. -/
theorem sample_size_eq_floor_witness :
    (0 : ℚ) ≤ 40
    ∧ sample_size_of 9 40 4 = if (0 : ℚ) < 40 then ⌊(40 : ℚ) * 4 / 100⌋ else 9 :=
  ⟨by norm_num, sample_size_eq_floor 4 9 40 (by norm_num)⟩

/-- Claim C5 counterexample (status: corrected).  With population `N = 2` and
sample size `k = 2`, the underlying choice `[0, 1]` is valid, yet
`random_sample` returns `[0, 4]`: the element `4` lies outside `[0, 2)`,
because the 4-line stride scaling happens inside `random_sample` itself
(line 105), not in a separate loader step. -/
theorem random_sample_scaled_positions_escape_range :
    validChoice 2 2 [0, 1]
    ∧ random_sample 2 2 0 [0, 1] = .ok [0, 4]
    ∧ ¬ (∀ y ∈ ([0, 4] : List ℕ), y < 2) := by
  refine ⟨by decide, rfl, by decide⟩

/-- Claim C5 as amended (status: corrected).  For `0 < k ≤ N` and any valid
underlying choice, `random_sample` succeeds and returns exactly `k` distinct
values, each of the form `p * 4` with `p ∈ [0, N)` — the positions already
scaled by the 4-line record stride inside the sampler. -/
theorem random_sample_returns_scaled_distinct (N k : ℕ) (sel : List ℕ)
    (hk : 0 < k) (hkN : k ≤ N) (hsel : validChoice N k sel) :
    ∃ out, random_sample N (k : ℤ) 0 sel = .ok out
      ∧ out.Nodup ∧ out.length = k
      ∧ ∀ y ∈ out, ∃ p, p < N ∧ y = p * 4 := by
  obtain ⟨hnd, hlen, hmem⟩ := hsel
  refine ⟨sel.map (fun x => x * 4), ?_, ?_, ?_, ?_⟩
  · unfold random_sample sample_size_of
    have h1 : ¬ ((k : ℤ) > (N : ℤ)) := by exact_mod_cast not_lt.mpr hkN
    have h2 : ¬ ((k : ℤ) = 0) := by exact_mod_cast Nat.pos_iff_ne_zero.mp hk
    simp [h1, h2]
  · exact hnd.map (fun a b hab => by omega)
  · simp [hlen]
  · intro y hy
    obtain ⟨p, hp, rfl⟩ := List.mem_map.mp hy
    exact ⟨p, hmem p hp, rfl⟩

/-- Concrete instantiation of `random_sample_returns_scaled_distinct` at
`N = 2`, `k = 2`, choice `[0, 1]`. -/
theorem random_sample_returns_scaled_distinct_witness :
    0 < 2 ∧ 2 ≤ 2 ∧ validChoice 2 2 [0, 1]
    ∧ ∃ out, random_sample 2 (2 : ℤ) 0 [0, 1] = .ok out
        ∧ out.Nodup ∧ out.length = 2
        ∧ ∀ y ∈ out, ∃ p, p < 2 ∧ y = p * 4 :=
  ⟨by decide, by decide, by decide,
   random_sample_returns_scaled_distinct 2 2 [0, 1] (by decide) (by decide) (by decide)⟩

/-- Claim C6 (status: confirmed).  `random_sample` fails with
`invalidSampleSize` exactly when the computed sample size exceeds the record
count or equals zero; in particular an absolute request of 0 and an absolute
request `k > N` (with zero percent) both fail this way. -/
theorem random_sample_invalid_size_iff :
    (∀ (N : ℕ) (a : ℤ) (p : ℚ) (sel : List ℕ),
       random_sample N a p sel = .error .invalidSampleSize
         ↔ (sample_size_of a p N > (N : ℤ) ∨ sample_size_of a p N = 0))
    ∧ (∀ (N : ℕ) (sel : List ℕ),
       random_sample N 0 0 sel = .error .invalidSampleSize)
    ∧ (∀ (N k : ℕ) (sel : List ℕ), k > N →
       random_sample N (k : ℤ) 0 sel = .error .invalidSampleSize) := by
  have hiff : ∀ (N : ℕ) (a : ℤ) (p : ℚ) (sel : List ℕ),
      random_sample N a p sel = .error .invalidSampleSize
        ↔ (sample_size_of a p N > (N : ℤ) ∨ sample_size_of a p N = 0) := by
    intro N a p sel
    unfold random_sample
    constructor
    · intro h
      by_cases h1 : sample_size_of a p N > (N : ℤ)
      · exact Or.inl h1
      · by_cases h2 : sample_size_of a p N = 0
        · exact Or.inr h2
        · simp [h1, h2] at h
    · rintro (h1 | h2)
      · simp [h1]
      · have h1 : ¬ (sample_size_of a p N > (N : ℤ)) := by
          rw [h2]; exact_mod_cast Int.not_lt.mpr (Int.ofNat_nonneg N)
        simp [h1, h2]
  refine ⟨hiff, ?_, ?_⟩
  · intro N sel
    exact (hiff N 0 0 sel).mpr (Or.inr (by simp [sample_size_of]))
  · intro N k sel hk
    exact (hiff N (k : ℤ) 0 sel).mpr (Or.inl (by simp [sample_size_of]; exact_mod_cast hk))

/-- Concrete instantiation of `random_sample_invalid_size_iff`: an oversized
request (3 of 2) and an empty request (0 of 2) both exit with
`invalidSampleSize`. -/
theorem random_sample_invalid_size_iff_witness :
    random_sample 2 (3 : ℤ) 0 [] = .error .invalidSampleSize
    ∧ random_sample 2 0 0 [] = .error .invalidSampleSize :=
  ⟨random_sample_invalid_size_iff.2.2 2 3 [] (by decide),
   random_sample_invalid_size_iff.2.1 2 []⟩

/-- One entry of the two-level `blast_dict` built by `blast_to_dict`
(lines 202-219), keyed by the alignment title.  The four metadata fields
(`Organism`, `Source`, `Domain`, `Taxonomy`) are only added later by
`fetch_to_dict`, hence are `Option`s that start out `none`; looking one up
while it is `none` models Python's `KeyError` on the inner dictionary. -/
structure HitRecord where
  title : List Char
  SeqID : List Char
  Sequence : List Char
  SeqLength : ℕ
  Description : List Char
  Accession : List Char
  Db : List Char
  Score : ℚ
  E_value : ℚ
  Percent_Identity : ℚ
  Organism : Option (List Char) := none
  Source : Option (List Char) := none
  Domain : Option (List Char) := none
  Taxonomy : Option (List (List Char)) := none
deriving DecidableEq, Repr

/-- One entry of `fetch_dict` (lines 276-281), as extracted from a parsed
GenBank record: its `record.id` and the four annotation-derived fields
(`Domain` being the first taxonomy rank).  The GenBank parsing itself is an
external collaborator, so records arrive with these fields populated. -/
structure MetadataRecord where
  id : List Char
  Organism : List Char
  Source : List Char
  Domain : List Char
  Taxonomy : List (List Char)
deriving DecidableEq, Repr

/-- Python's substring test `needle in haystack` on strings. -/
def pyInStr (needle haystack : List Char) : Bool := decide (needle <:+: haystack)

/-- Inner loop of `fetch_to_dict` (lines 283-286) for one BLAST record: for
each metadata accession that is a substring of the hit's `Accession` field,
copy the metadata fields onto the hit (a later match overwrites an earlier
one, as in the Python loop). -/
def mergeHit (fetch_dict : List MetadataRecord) (h : HitRecord) : HitRecord :=
  fetch_dict.foldl
    (fun h m =>
      if pyInStr m.id h.Accession then
        { h with Organism := some m.Organism, Source := some m.Source,
                 Domain := some m.Domain, Taxonomy := some m.Taxonomy }
      else h) h

/-- Embedding of `fetch_to_dict` (lines 267-287) with the GenBank file parsing abstracted
to its resulting `fetch_dict` records: merge metadata onto every BLAST
record by substring-matching accessions. -/
def fetch_to_dict (fetch_dict : List MetadataRecord)
    (blast_dict : List HitRecord) : List HitRecord :=
  blast_dict.map (mergeHit fetch_dict)

/-- One report cell, holding the value that line 312/316 would pass to
`str()`; the textual serialization of the report file is out of scope and
the cell keeps the value itself. -/
inductive Cell where
  | str (s : List Char)
  | nat (n : ℕ)
  | rat (q : ℚ)
  | strs (l : List (List Char))
deriving DecidableEq, Repr

/-- The fixed column list of `tabular_report` (line 307). -/
def columns : List (List Char) :=
  ["SeqID".data, "Sequence".data, "SeqLength".data, "Description".data,
   "Accession".data, "Db".data, "Score".data, "E_value".data,
   "Percent_Identity".data, "Organism".data, "Source".data, "Domain".data,
   "Taxonomy".data]

/-- The header row written at line 310. -/
def headerRow : List Cell := columns.map Cell.str

/-- The literal marker written into fallback rows (line 316). -/
def noHitMarker : List Char := "NO HIT OR SEQUENCE QUALITY BELOW THRESHOLD".data

/-- One hit row (line 312): the thirteen column values of a BLAST record.
Python indexes the inner dictionary by every column name, so a record whose
metadata merge never fired raises `KeyError` on `Organism` (and the other
merged keys). -/
def hitRowCells (h : HitRecord) : Except Err (List Cell) :=
  match h.Organism, h.Source, h.Domain, h.Taxonomy with
  | some org, some src, some dom, some tax =>
      .ok [.str h.SeqID, .str h.Sequence, .nat h.SeqLength, .str h.Description,
           .str h.Accession, .str h.Db, .rat h.Score, .rat h.E_value,
           .rat h.Percent_Identity, .str org, .str src, .str dom, .strs tax]
  | _, _, _, _ => .error .keyError

/-- Python's `s.split('\t')[0]` (line 315). -/
def splitTabHead (s : List Char) : List Char :=
  s.takeWhile (fun c => !(c == '\t'))

/-- Dictionary lookup `sample_dict[key]` restricted to existing keys. -/
def findSample (sample_dict : List SampleRecord) (key : List Char) :
    Option SampleRecord :=
  sample_dict.find? (fun r => r.header == key)

/-- One fallback row (lines 313-316): the stripped sample id, the *raw*
sequence `sample_dict['@'+sample]['sequence']`, its length, and the no-hit
marker; `KeyError` if the reconstructed key `'@' + sample` is absent. -/
def fallbackRow (sample_dict : List SampleRecord) (s : List Char) :
    Except Err (List Cell) :=
  match findSample sample_dict ('@' :: s) with
  | some r =>
      .ok [.str (splitTabHead s), .str r.sequence, .nat r.sequence.length,
           .str noHitMarker]
  | none => .error .keyError

/-- Embedding of `tabular_report` (lines 290-317): the header row, then one row per BLAST
record (iteration order of `blast_dict`), then one fallback row per sample
whose stripped header (`sequenceID[1:]`, line 303) does not occur among the
BLAST records' `SeqID`s (lines 313-316). -/
def tabular_report (sample_dict : List SampleRecord)
    (blast_dict : List HitRecord) : Except Err (List (List Cell)) := do
  let samples := sample_dict.map (fun r => r.header.drop 1)
  let records := blast_dict.map (fun h => h.SeqID)
  let hitRows ← blast_dict.mapM hitRowCells
  let fbRows ← (samples.filter (fun s => !(records.contains s))).mapM
      (fallbackRow sample_dict)
  .ok (headerRow :: (hitRows ++ fbRows))

/-- One HSP of one alignment of a parsed BLAST record, as consumed by
`blast_to_dict` (lines 203-219); the XML parsing is an external
collaborator. -/
structure BlastHsp where
  identities : ℕ
  align_length : ℕ
  score : ℚ
  expect : ℚ
  query : List Char
deriving DecidableEq, Repr

/-- One alignment of a parsed BLAST record. -/
structure BlastAlignment where
  title : List Char
  hsps : List BlastHsp
deriving DecidableEq, Repr

/-- One parsed BLAST record. -/
structure BlastRecord where
  query : List Char
  alignments : List BlastAlignment
deriving DecidableEq, Repr

/-- Line 206: `round(100 * identities / align_length, 2)`, over exact
rationals (rounding ties and the zero-length-division exception of the float
original are not exercised by any claim). -/
def percentIdentity (identities align_length : ℕ) : ℚ :=
  ((round ((100 * (identities : ℚ) / (align_length : ℚ)) * 100) : ℤ) : ℚ) / 100

/-- The `(record, alignment, hsp)` triples visited by the nested loops of
lines 203-205, flattened in iteration order and carrying the fields the loop
body uses: the record's query and the alignment's title. -/
def hitTriples (records : List BlastRecord) :
    List (List Char × List Char × BlastHsp) :=
  records.flatMap (fun rec =>
    rec.alignments.flatMap (fun al =>
      al.hsps.map (fun hsp => (rec.query, al.title, hsp))))

/-- Line 207/210: `align.title.split('|')[1]`, the GenInfo identifier;
`IndexError` if the title has fewer than two pipe-separated parts. -/
def titleGeneID (title : List Char) : Except Err (List Char) :=
  match (List.splitOn '|' title).get? 1 with
  | some g => .ok g
  | none => .error .indexError

/-- Lines 211-219: the `blast_dict` entry built for one `(record, alignment,
hsp)` triple. -/
def mkHit (recordQuery title : List Char) (hsp : BlastHsp) :
    Except Err HitRecord :=
  let hit_id := List.splitOn '|' title
  match hit_id.get? 2, hit_id.get? 3, hit_id.get? 4 with
  | some db, some acc, some desc =>
      .ok { title := title, SeqID := recordQuery, Sequence := hsp.query,
            SeqLength := hsp.query.length, Description := desc,
            Accession := acc, Db := db, Score := hsp.score,
            E_value := hsp.expect,
            Percent_Identity := percentIdentity hsp.identities hsp.align_length }
  | _, _, _ => .error .indexError

/-- The `GeneIDs` list accumulated by line 210 over all triples. -/
def geneIDsCollected (records : List BlastRecord) :
    Except Err (List (List Char)) :=
  (hitTriples records).mapM (fun t => titleGeneID t.2.1)

/-- Embedding of `blast_to_dict` (lines 193-226): build the per-triple entries and the
`GeneIDs` list, deduplicate the latter (line 220, `list(set(...))`), and
`sys.exit()` when it is empty (lines 221-225). -/
def blast_to_dict (records : List BlastRecord) :
    Except Err (List HitRecord × List (List Char)) := do
  let geneIDs ← geneIDsCollected records
  let hits ← (hitTriples records).mapM (fun t => mkHit t.1 t.2.1 t.2.2)
  let deduped := geneIDs.dedup
  if deduped.isEmpty then .error .emptySearchResult else .ok (hits, deduped)

/-- Lines 327-330 of `main`: parse the BLAST results, fetch metadata for the
gene ids (the external `fetch_gene_info`/`Entrez` round trip abstracted to
`fetchFn`), merge, and write the report. -/
def pipelineAfterBlast (records : List BlastRecord)
    (fetchFn : List (List Char) → Except Err (List MetadataRecord))
    (sample_dict : List SampleRecord) : Except Err (List (List Cell)) := do
  let (blast_dict, geneIDs) ← blast_to_dict records
  let fetch_dict ← fetchFn geneIDs
  tabular_report sample_dict (fetch_to_dict fetch_dict blast_dict)

/-- An `Except`-valued `mapM` that succeeds with the empty list was given the
empty list. -/
theorem exceptMapM_ok_nil {α β : Type} (f : α → Except Err β) (l : List α)
    (h : l.mapM f = .ok []) : l = [] := by
  cases l with
  | nil => rfl
  | cons a as =>
    rw [List.mapM_cons] at h
    cases hfa : f a with
    | error e => rw [hfa] at h; exact absurd h (by simp [Bind.bind, Except.bind])
    | ok b =>
      rw [hfa] at h
      cases has : as.mapM f with
      | error e => rw [has] at h; exact absurd h (by simp [Bind.bind, Except.bind])
      | ok bs =>
        rw [has] at h
        exact absurd h (by simp [Bind.bind, Except.bind, Pure.pure, Except.pure])

/-- Claim C8 (status: confirmed).  When the collected gene-id list
deduplicates to nothing, `blast_to_dict` fails with `emptySearchResult`, and
the remainder of the pipeline fails the same way whatever the metadata-fetch
collaborator would have answered — i.e. the run halts before any fetch
attempt. -/
theorem empty_geneids_halt_before_fetch (records : List BlastRecord)
    (gids : List (List Char)) (sample_dict : List SampleRecord)
    (fetchFn : List (List Char) → Except Err (List MetadataRecord))
    (hok : geneIDsCollected records = .ok gids) (hempty : gids.dedup = []) :
    blast_to_dict records = .error .emptySearchResult
    ∧ pipelineAfterBlast records fetchFn sample_dict
        = .error .emptySearchResult := by
  have hnil : gids = [] := (List.dedup_eq_nil gids).mp hempty
  subst hnil
  have htriples : hitTriples records = [] :=
    exceptMapM_ok_nil _ _ hok
  have hb : blast_to_dict records = .error .emptySearchResult := by
    unfold blast_to_dict
    rw [hok, htriples]
    rfl
  refine ⟨hb, ?_⟩
  unfold pipelineAfterBlast
  rw [hb]
  rfl

/-- Concrete instantiation of `empty_geneids_halt_before_fetch`: one BLAST
record with no alignments at all. -/
theorem empty_geneids_halt_before_fetch_witness :
    geneIDsCollected [⟨"q".data, []⟩] = .ok []
    ∧ blast_to_dict [⟨"q".data, []⟩] = .error .emptySearchResult
    ∧ pipelineAfterBlast [⟨"q".data, []⟩] (fun _ => .ok []) []
        = .error .emptySearchResult :=
  ⟨rfl,
   (empty_geneids_halt_before_fetch [⟨"q".data, []⟩] [] [] (fun _ => .ok [])
     rfl rfl).1,
   (empty_geneids_halt_before_fetch [⟨"q".data, []⟩] [] [] (fun _ => .ok [])
     rfl rfl).2⟩

/-- A hit whose `Accession` no metadata accession substring-matches passes
through `mergeHit` unchanged. -/
theorem mergeHit_no_match (fetch_dict : List MetadataRecord) (h : HitRecord)
    (hno : ∀ m ∈ fetch_dict, pyInStr m.id h.Accession = false) :
    mergeHit fetch_dict h = h := by
  induction fetch_dict with
  | nil => rfl
  | cons m ms ih =>
    have hm := hno m (List.mem_cons_self m ms)
    unfold mergeHit at ih ⊢
    rw [List.foldl_cons, hm]
    simp only [Bool.false_eq_true, if_false]
    exact ih (fun m' hm' => hno m' (List.mem_cons_of_mem m hm'))

/-- The only failure `hitRowCells` can produce is `keyError`. -/
theorem hitRowCells_error_keyError (a : HitRecord) (e : Err)
    (h : hitRowCells a = .error e) : e = .keyError := by
  unfold hitRowCells at h
  split at h
  · exact absurd h (by simp)
  · injection h with h
    exact h.symm

/-- A hit with no `Organism` field makes `hitRowCells` fail with
`keyError`. -/
theorem hitRowCells_organism_none (a : HitRecord) (ho : a.Organism = none) :
    hitRowCells a = .error .keyError := by
  unfold hitRowCells
  split
  · next org _ _ _ heq _ _ _ => rw [ho] at heq; exact absurd heq (by simp)
  · rfl

/-- If some hit in the list has no `Organism` field, building the hit rows
fails with `keyError`. -/
theorem mapM_hitRows_error (l : List HitRecord)
    (hex : ∃ h ∈ l, h.Organism = none) :
    l.mapM hitRowCells = .error .keyError := by
  induction l with
  | nil => simp at hex
  | cons a as ih =>
    rw [List.mapM_cons]
    obtain ⟨h, hmem, ho⟩ := hex
    rcases List.mem_cons.mp hmem with rfl | hmem'
    · rw [hitRowCells_organism_none h ho]
      rfl
    · cases ha : hitRowCells a with
      | error e =>
        have he : e = .keyError := hitRowCells_error_keyError a e ha
        subst he
        rfl
      | ok row =>
        rw [ih ⟨h, hmem', ho⟩]
        rfl

/-- Claim C10 (status: confirmed).  When the metadata set is non-empty but
none of its accession ids substring-matches a hit's `Accession`, that hit
keeps none of the `Organism`/`Source`/`Domain`/`Taxonomy` fields, and the
report stage then fails with a `keyError` — it does not emit a row with
blank metadata. -/
theorem unmatched_accession_report_keyerror
    (fetch_dict : List MetadataRecord) (blast_dict : List HitRecord)
    (h : HitRecord) (sample_dict : List SampleRecord)
    (hne : fetch_dict ≠ [])
    (hmem : h ∈ blast_dict)
    (ho : h.Organism = none) (hs : h.Source = none)
    (hd : h.Domain = none) (ht : h.Taxonomy = none)
    (hno : ∀ m ∈ fetch_dict, pyInStr m.id h.Accession = false) :
    (mergeHit fetch_dict h).Organism = none
    ∧ (mergeHit fetch_dict h).Source = none
    ∧ (mergeHit fetch_dict h).Domain = none
    ∧ (mergeHit fetch_dict h).Taxonomy = none
    ∧ tabular_report sample_dict (fetch_to_dict fetch_dict blast_dict)
        = .error .keyError := by
  have hmerge := mergeHit_no_match fetch_dict h hno
  rw [hmerge]
  refine ⟨ho, hs, hd, ht, ?_⟩
  unfold tabular_report fetch_to_dict
  rw [mapM_hitRows_error (blast_dict.map (mergeHit fetch_dict))
    ⟨mergeHit fetch_dict h, List.mem_map_of_mem _ hmem, by rw [hmerge]; exact ho⟩]
  rfl

/-- Example metadata record used to instantiate the correlator theorems. -/
def exMeta : MetadataRecord :=
  ⟨"XYZ".data, "organism".data, "source".data, "Bacteria".data,
   ["Bacteria".data]⟩

/-- Example un-merged hit whose accession shares no substring with
`exMeta.id`. -/
def exMissHit : HitRecord :=
  ⟨"t".data, "A".data, "ACGT".data, 4, "desc".data, "AB123".data, "nt".data,
   0, 0, 0, none, none, none, none⟩

/-- Concrete instantiation of `unmatched_accession_report_keyerror`: metadata
accession `XYZ` never substring-matches hit accession `AB123`, so the hit
stays bare and the report fails. -/
theorem unmatched_accession_report_keyerror_witness :
    ([exMeta] : List MetadataRecord) ≠ []
    ∧ exMissHit ∈ [exMissHit]
    ∧ (∀ m ∈ [exMeta], pyInStr m.id exMissHit.Accession = false)
    ∧ (mergeHit [exMeta] exMissHit).Organism = none
    ∧ tabular_report [] (fetch_to_dict [exMeta] [exMissHit])
        = .error .keyError :=
  ⟨by simp, List.mem_singleton.mpr rfl, by decide,
   (unmatched_accession_report_keyerror [exMeta] [exMissHit] exMissHit []
     (by simp) (List.mem_singleton.mpr rfl) rfl rfl rfl rfl (by decide)).1,
   (unmatched_accession_report_keyerror [exMeta] [exMissHit] exMissHit []
     (by simp) (List.mem_singleton.mpr rfl) rfl rfl rfl rfl (by decide)).2.2.2.2⟩

/-- An `Except`-valued `mapM` all of whose calls succeed pointwise computes
the corresponding `map`. -/
theorem exceptMapM_ok_map {α β : Type} (f : α → Except Err β) (g : α → β)
    (l : List α) (h : ∀ a ∈ l, f a = .ok (g a)) :
    l.mapM f = .ok (l.map g) := by
  induction l with
  | nil => rfl
  | cons a as ih =>
    rw [List.mapM_cons, h a (List.mem_cons_self a as),
      ih (fun x hx => h x (List.mem_cons_of_mem a hx))]
    rfl

/-- All four merge-stage metadata keys are present on a hit. -/
def metaComplete (h : HitRecord) : Prop :=
  h.Organism.isSome ∧ h.Source.isSome ∧ h.Domain.isSome ∧ h.Taxonomy.isSome

/-- Total version of `hitRowCells`, agreeing with it on hits with complete
metadata. -/
def hitRowTotal (h : HitRecord) : List Cell :=
  match h.Organism, h.Source, h.Domain, h.Taxonomy with
  | some org, some src, some dom, some tax =>
      [.str h.SeqID, .str h.Sequence, .nat h.SeqLength, .str h.Description,
       .str h.Accession, .str h.Db, .rat h.Score, .rat h.E_value,
       .rat h.Percent_Identity, .str org, .str src, .str dom, .strs tax]
  | _, _, _, _ => []

theorem hitRowCells_ok_of_complete (h : HitRecord) (hc : metaComplete h) :
    hitRowCells h = .ok (hitRowTotal h) := by
  obtain ⟨h1, h2, h3, h4⟩ := hc
  obtain ⟨o, ho⟩ := Option.isSome_iff_exists.mp h1
  obtain ⟨s, hs⟩ := Option.isSome_iff_exists.mp h2
  obtain ⟨d, hd⟩ := Option.isSome_iff_exists.mp h3
  obtain ⟨t, ht⟩ := Option.isSome_iff_exists.mp h4
  unfold hitRowCells hitRowTotal
  rw [ho, hs, hd, ht]

/-- Total version of `fallbackRow`, agreeing with it on samples whose key
lookup succeeds. -/
def fallbackRowTotal (sample_dict : List SampleRecord) (s : List Char) :
    List Cell :=
  match findSample sample_dict ('@' :: s) with
  | some r =>
      [.str (splitTabHead s), .str r.sequence, .nat r.sequence.length,
       .str noHitMarker]
  | none => []

theorem fallbackRow_ok (sample_dict : List SampleRecord) (s : List Char)
    (r : SampleRecord) (h : findSample sample_dict ('@' :: s) = some r) :
    fallbackRow sample_dict s = .ok (fallbackRowTotal sample_dict s) := by
  unfold fallbackRow fallbackRowTotal
  rw [h]

theorem splitTabHead_eq_self (s : List Char) (h : '\t' ∉ s) :
    splitTabHead s = s := by
  unfold splitTabHead
  rw [List.takeWhile_eq_self_iff]
  intro x hx
  have hne : x ≠ '\t' := fun hc => h (hc ▸ hx)
  simp [hne]

/-- Looking a sample up by its reconstructed key `'@' + header[1:]` succeeds
for every record whose header starts with `'@'`. -/
theorem findSample_of_wellformed (sample_dict : List SampleRecord)
    (r : SampleRecord) (hr : r ∈ sample_dict) (t : List Char)
    (ht : r.header = '@' :: t) :
    ∃ r', findSample sample_dict ('@' :: (r.header.drop 1)) = some r'
      ∧ r' ∈ sample_dict ∧ r'.header = r.header := by
  have hkey : '@' :: (r.header.drop 1) = r.header := by rw [ht]; rfl
  rw [hkey]
  unfold findSample
  have hsome : (sample_dict.find? (fun x => x.header == r.header)).isSome :=
    List.find?_isSome.mpr ⟨r, hr, by simp⟩
  obtain ⟨r', hr'⟩ := Option.isSome_iff_exists.mp hsome
  refine ⟨r', hr', List.mem_of_find?_eq_some hr', ?_⟩
  have := List.find?_some hr'
  simpa using this

theorem countP_congr_mem {α : Type} (l : List α) (p q : α → Bool)
    (h : ∀ a ∈ l, p a = q a) : l.countP p = l.countP q := by
  induction l with
  | nil => rfl
  | cons a as ih =>
    rw [List.countP_cons, List.countP_cons, h a (List.mem_cons_self a as),
      ih (fun x hx => h x (List.mem_cons_of_mem a hx))]

/-- Evaluation of `tabular_report` on well-formed inputs: the header row, then the hit
rows in `blast_dict` order, then the fallback rows of the no-hit samples in
`sample_dict` order. -/
theorem tabular_report_ok (sample_dict : List SampleRecord)
    (blast_dict : List HitRecord)
    (H1 : ∀ r ∈ sample_dict, ∃ t, r.header = '@' :: t)
    (H4 : ∀ h ∈ blast_dict, metaComplete h) :
    tabular_report sample_dict blast_dict
      = .ok (headerRow ::
          (blast_dict.map hitRowTotal
            ++ ((sample_dict.map (fun r => r.header.drop 1)).filter
                  (fun s => !((blast_dict.map (fun h => h.SeqID)).contains s))).map
                 (fallbackRowTotal sample_dict))) := by
  have hfb : ∀ s ∈ (sample_dict.map (fun r => r.header.drop 1)).filter
      (fun s => !((blast_dict.map (fun h => h.SeqID)).contains s)),
      fallbackRow sample_dict s = .ok (fallbackRowTotal sample_dict s) := by
    intro s hs
    have hs' : s ∈ sample_dict.map (fun r => r.header.drop 1) :=
      List.mem_of_mem_filter hs
    obtain ⟨r, hr, rfl⟩ := List.mem_map.mp hs'
    obtain ⟨t, ht⟩ := H1 r hr
    obtain ⟨r', hr', _, _⟩ := findSample_of_wellformed sample_dict r hr t ht
    exact fallbackRow_ok sample_dict _ r' hr'
  unfold tabular_report
  dsimp only
  rw [exceptMapM_ok_map hitRowCells hitRowTotal blast_dict
      (fun h hh => hitRowCells_ok_of_complete h (H4 h hh)),
    exceptMapM_ok_map (fallbackRow sample_dict) (fallbackRowTotal sample_dict)
      _ hfb]
  rfl

/-- In a duplicate-free list, exactly one entry is `==` to a given member. -/
theorem countP_beq_eq_one {α : Type} [BEq α] [LawfulBEq α] (l : List α) (a : α)
    (hnd : l.Nodup) (ha : a ∈ l) : l.countP (fun x => x == a) = 1 := by
  induction l with
  | nil => exact absurd ha (List.not_mem_nil a)
  | cons b bs ih =>
    have hnd' := List.nodup_cons.mp hnd
    rw [List.countP_cons]
    rcases List.mem_cons.mp ha with rfl | hmem
    · have h0 : bs.countP (fun x => x == a) = 0 :=
        List.countP_eq_zero.mpr
          (fun x hx hbeq => hnd'.1 ((beq_iff_eq.mp hbeq) ▸ hx))
      rw [h0, beq_self_eq_true]
      rfl
    · have hba : (b == a) = false :=
        beq_eq_false_iff_ne.mpr (fun hc => hnd'.1 (hc ▸ hmem))
      rw [hba, ih hnd'.2 hmem]
      rfl

/-- On a `Cell`-level comparison, `Cell.str` is faithful to the underlying
character lists. -/
theorem cellStr_beq (s s' : List Char) :
    (Cell.str s == Cell.str s') = (s == s') := by
  rcases eq_or_ne s s' with rfl | hne
  · simp
  · rw [beq_eq_false_iff_ne.mpr hne,
      beq_eq_false_iff_ne.mpr (fun hc => hne (by injection hc))]

/-- Claim C2 as amended (status: corrected).  The report is the header row,
one row per HitRecord, then one fallback row per sample whose stripped
header occurs as no hit's `query_id`; every sample is in exactly one of the
two categories — a sample with a hit gets no fallback row, a sample without
gets exactly one (a sample with several hits appears in several hit rows,
so "exactly once in the report" holds at the category level, not the row
level). -/
theorem tabular_report_closure (sample_dict : List SampleRecord)
    (blast_dict : List HitRecord)
    (H1 : ∀ r ∈ sample_dict, ∃ t, r.header = '@' :: t)
    (H2 : (sample_dict.map (fun r => r.header.drop 1)).Nodup)
    (H3 : ∀ r ∈ sample_dict, '\t' ∉ r.header)
    (H4 : ∀ h ∈ blast_dict, metaComplete h) :
    ∃ hitRows fbRows,
      tabular_report sample_dict blast_dict
        = .ok (headerRow :: (hitRows ++ fbRows))
      ∧ hitRows.length = blast_dict.length
      ∧ fbRows.length = ((sample_dict.map (fun r => r.header.drop 1)).filter
            (fun s => !((blast_dict.map (fun h => h.SeqID)).contains s))).length
      ∧ ∀ r ∈ sample_dict,
          (r.header.drop 1 ∈ blast_dict.map (fun h => h.SeqID)
            ∧ fbRows.countP (fun row =>
                row.headD (Cell.str []) == Cell.str (r.header.drop 1)) = 0)
          ∨ (r.header.drop 1 ∉ blast_dict.map (fun h => h.SeqID)
            ∧ fbRows.countP (fun row =>
                row.headD (Cell.str []) == Cell.str (r.header.drop 1)) = 1) := by
  refine ⟨blast_dict.map hitRowTotal,
    ((sample_dict.map (fun r => r.header.drop 1)).filter
      (fun s => !((blast_dict.map (fun h => h.SeqID)).contains s))).map
      (fallbackRowTotal sample_dict),
    tabular_report_ok sample_dict blast_dict H1 H4,
    List.length_map .., List.length_map .., ?_⟩
  intro r hr
  have hhead : ∀ s ∈ (sample_dict.map (fun r => r.header.drop 1)).filter
      (fun s => !((blast_dict.map (fun h => h.SeqID)).contains s)),
      (fallbackRowTotal sample_dict s).headD (Cell.str []) = Cell.str s := by
    intro s hs
    have hs' : s ∈ sample_dict.map (fun r => r.header.drop 1) :=
      List.mem_of_mem_filter hs
    obtain ⟨r1, hr1, rfl⟩ := List.mem_map.mp hs'
    obtain ⟨t, ht⟩ := H1 r1 hr1
    obtain ⟨r', hfind, _, _⟩ := findSample_of_wellformed sample_dict r1 hr1 t ht
    have htab : '\t' ∉ r1.header.drop 1 :=
      fun hc => H3 r1 hr1 (List.drop_subset 1 r1.header hc)
    unfold fallbackRowTotal
    rw [hfind, splitTabHead_eq_self _ htab]
    rfl
  have hcnt : (((sample_dict.map (fun r => r.header.drop 1)).filter
        (fun s => !((blast_dict.map (fun h => h.SeqID)).contains s))).map
        (fallbackRowTotal sample_dict)).countP
        (fun row => row.headD (Cell.str []) == Cell.str (r.header.drop 1))
      = ((sample_dict.map (fun r => r.header.drop 1)).filter
        (fun s => !((blast_dict.map (fun h => h.SeqID)).contains s))).countP
        (fun s => s == r.header.drop 1) := by
    rw [List.countP_map]
    refine countP_congr_mem _ _ _ (fun s hs => ?_)
    show ((fallbackRowTotal sample_dict s).headD (Cell.str [])
        == Cell.str (r.header.drop 1)) = (s == r.header.drop 1)
    rw [hhead s hs, cellStr_beq]
  rw [List.countP_filter] at hcnt
  by_cases hmem0 : r.header.drop 1 ∈ blast_dict.map (fun h => h.SeqID)
  · left
    refine ⟨hmem0, ?_⟩
    rw [hcnt]
    rw [List.countP_eq_zero]
    intro a _ hconj
    rw [Bool.and_eq_true] at hconj
    obtain ⟨ha, hb⟩ := hconj
    rw [beq_iff_eq] at ha
    subst ha
    rw [Bool.not_eq_true'] at hb
    have hc : (blast_dict.map (fun h => h.SeqID)).contains (r.header.drop 1) = true :=
      List.elem_iff.mpr hmem0
    rw [hb] at hc
    exact Bool.false_ne_true hc
  · right
    refine ⟨hmem0, ?_⟩
    rw [hcnt]
    have hpt : ∀ a ∈ sample_dict.map (fun r => r.header.drop 1),
        ((a == r.header.drop 1)
          && !((blast_dict.map (fun h => h.SeqID)).contains a))
        = (a == r.header.drop 1) := by
      intro a _
      cases ha : (a == r.header.drop 1) with
      | false => rfl
      | true =>
        obtain rfl := beq_iff_eq.mp ha
        rw [Bool.true_and, Bool.not_eq_true']
        cases hcc : (blast_dict.map (fun h => h.SeqID)).contains (r.header.drop 1) with
        | false => rfl
        | true =>
          have hmm : r.header.drop 1 ∈ blast_dict.map (fun h => h.SeqID) :=
            List.elem_iff.mp hcc
          exact absurd hmm hmem0
    rw [countP_congr_mem _ _ _ hpt]
    have hmem1 : r.header.drop 1 ∈ sample_dict.map (fun r => r.header.drop 1) :=
      List.mem_map_of_mem _ hr
    exact countP_beq_eq_one _ _ H2 hmem1

/-- Claim C3 as amended (status: corrected).  The fallback row emitted for a
sample with no hit contains the stripped header, the *raw* (untrimmed)
sequence, the raw sequence's length, and the no-hit marker. -/
theorem fallback_row_content (sample_dict : List SampleRecord)
    (blast_dict : List HitRecord)
    (H1 : ∀ r ∈ sample_dict, ∃ t, r.header = '@' :: t)
    (H2 : (sample_dict.map (fun r => r.header.drop 1)).Nodup)
    (H3 : ∀ r ∈ sample_dict, '\t' ∉ r.header)
    (H4 : ∀ h ∈ blast_dict, metaComplete h)
    (r : SampleRecord) (hr : r ∈ sample_dict)
    (hnohit : r.header.drop 1 ∉ blast_dict.map (fun h => h.SeqID)) :
    ∃ rows, tabular_report sample_dict blast_dict = .ok rows
      ∧ [Cell.str (r.header.drop 1), Cell.str r.sequence,
         Cell.nat r.sequence.length, Cell.str noHitMarker] ∈ rows := by
  refine ⟨_, tabular_report_ok sample_dict blast_dict H1 H4, ?_⟩
  have hs0 : r.header.drop 1 ∈ (sample_dict.map (fun r => r.header.drop 1)).filter
      (fun s => !((blast_dict.map (fun h => h.SeqID)).contains s)) := by
    refine List.mem_filter.mpr ⟨List.mem_map_of_mem _ hr, ?_⟩
    rw [Bool.not_eq_true']
    cases hcc : (blast_dict.map (fun h => h.SeqID)).contains (r.header.drop 1) with
    | false => rfl
    | true => exact absurd (List.elem_iff.mp hcc) hnohit
  have hrow : fallbackRowTotal sample_dict (r.header.drop 1)
      = [Cell.str (r.header.drop 1), Cell.str r.sequence,
         Cell.nat r.sequence.length, Cell.str noHitMarker] := by
    obtain ⟨t, ht⟩ := H1 r hr
    obtain ⟨r', hfind, hr'mem, hr'head⟩ :=
      findSample_of_wellformed sample_dict r hr t ht
    have hrr : r' = r := by
      refine List.inj_on_of_nodup_map H2 hr'mem hr ?_
      rw [hr'head]
    subst hrr
    unfold fallbackRowTotal
    have htab : '\t' ∉ r'.header.drop 1 :=
      fun hc => H3 r' hr (List.drop_subset 1 r'.header hc)
    rw [hfind, splitTabHead_eq_self _ htab]
  apply List.mem_cons_of_mem
  apply List.mem_append_right
  rw [← hrow]
  exact List.mem_map_of_mem _ hs0

/-- Example sampled record for the correlator theorems: header `@A`, raw
sequence `ACGT`, all-passing quality. -/
def exSample : SampleRecord :=
  ⟨"@A".data, "ACGT".data, "IIII".data, [40, 40, 40, 40], none, none⟩

/-- Example hit for query `A` with complete metadata. -/
def exHit : HitRecord :=
  ⟨"title1".data, "A".data, "ACGT".data, 4, "desc".data, "AB123".data,
   "nt".data, 0, 0, 0, some "org".data, some "src".data, some "dom".data,
   some ["dom".data]⟩

/-- A second, distinct hit for the same query `A`. -/
def exHit2 : HitRecord :=
  ⟨"title2".data, "A".data, "ACG".data, 3, "desc2".data, "CD456".data,
   "nt".data, 0, 0, 0, some "org".data, some "src".data, some "dom".data,
   some ["dom".data]⟩

/-- Claim C2 counterexample (status: corrected): with one sampled read `A`
and two hits whose `query_id` is `A`, the report carries two rows whose
first cell is `A` (plus the header row, three rows in all) — the sampled
read does not appear exactly once in the report. -/
theorem tabular_report_read_in_two_rows :
    (tabular_report [exSample] [exHit, exHit2]).map
        (fun rows => rows.countP
          (fun row => row.headD (Cell.str []) == Cell.str "A".data))
      = .ok 2
    ∧ (tabular_report [exSample] [exHit, exHit2]).map List.length = .ok 3
    ∧ (2 : ℕ) ≠ 1 :=
  ⟨rfl, rfl, by decide⟩

/-- Concrete instantiation of `tabular_report_closure` with one sample and
one hit. -/
theorem tabular_report_closure_witness :
    (∀ r ∈ [exSample], ∃ t, r.header = '@' :: t)
    ∧ (([exSample].map (fun r => r.header.drop 1)).Nodup)
    ∧ (∀ r ∈ [exSample], '\t' ∉ r.header)
    ∧ (∀ h ∈ [exHit], metaComplete h)
    ∧ ∃ hitRows fbRows,
        tabular_report [exSample] [exHit]
          = .ok (headerRow :: (hitRows ++ fbRows))
        ∧ hitRows.length = [exHit].length
        ∧ fbRows.length = (([exSample].map (fun r => r.header.drop 1)).filter
              (fun s => !(([exHit].map (fun h => h.SeqID)).contains s))).length
        ∧ ∀ r ∈ [exSample],
            (r.header.drop 1 ∈ [exHit].map (fun h => h.SeqID)
              ∧ fbRows.countP (fun row =>
                  row.headD (Cell.str []) == Cell.str (r.header.drop 1)) = 0)
            ∨ (r.header.drop 1 ∉ [exHit].map (fun h => h.SeqID)
              ∧ fbRows.countP (fun row =>
                  row.headD (Cell.str []) == Cell.str (r.header.drop 1)) = 1) :=
  ⟨fun r hrr => ⟨"A".data, by rw [List.eq_of_mem_singleton hrr]; rfl⟩,
   by decide,
   fun r hrr => by rw [List.eq_of_mem_singleton hrr]; decide,
   fun h hh => by rw [List.eq_of_mem_singleton hh]; exact ⟨rfl, rfl, rfl, rfl⟩,
   tabular_report_closure [exSample] [exHit]
     (fun r hrr => ⟨"A".data, by rw [List.eq_of_mem_singleton hrr]; rfl⟩)
     (by decide)
     (fun r hrr => by rw [List.eq_of_mem_singleton hrr]; decide)
     (fun h hh => by rw [List.eq_of_mem_singleton hh]; exact ⟨rfl, rfl, rfl, rfl⟩)⟩

/-- The report-time record for the C3 counterexample: raw sequence `ACGT`,
trimmed sequence `CGT` (exactly what `trim_ends` produces at thresholds
20/20 from quality scores `[10, 30, 30, 10]`). -/
def exTrimmed : SampleRecord :=
  ⟨"@A".data, "ACGT".data, "+??+".data, [10, 30, 30, 10],
   some [30, 30, 10], some "CGT".data⟩

/-- Claim C3 counterexample (status: corrected): a no-hit sample whose
trimmed sequence `CGT` differs from its raw sequence `ACGT` gets a fallback
row carrying the raw sequence and its length 4 — not the trimmed sequence
`CGT` and its length 3 as the claim states. -/
theorem fallback_row_uses_raw_sequence :
    trim_ends ⟨"@A".data, "ACGT".data, "+??+".data, [10, 30, 30, 10],
               none, none⟩ 20 20
      = .ok exTrimmed
    ∧ tabular_report [exTrimmed] []
      = .ok [headerRow,
             [Cell.str "A".data, Cell.str "ACGT".data, Cell.nat 4,
              Cell.str noHitMarker]]
    ∧ exTrimmed.trimmed_sequence = some "CGT".data
    ∧ "ACGT".data ≠ "CGT".data
    ∧ (4 : ℕ) ≠ 3 :=
  ⟨rfl, rfl, rfl, by decide, by decide⟩

/-- Concrete instantiation of `fallback_row_content`: the no-hit sample
`@A` yields a fallback row with its raw sequence `ACGT`, its length and the
marker. -/
theorem fallback_row_content_witness :
    (∀ r ∈ [exTrimmed], ∃ t, r.header = '@' :: t)
    ∧ exTrimmed ∈ [exTrimmed]
    ∧ exTrimmed.header.drop 1 ∉ ([] : List HitRecord).map (fun h => h.SeqID)
    ∧ ∃ rows, tabular_report [exTrimmed] [] = .ok rows
        ∧ [Cell.str (exTrimmed.header.drop 1), Cell.str exTrimmed.sequence,
           Cell.nat exTrimmed.sequence.length, Cell.str noHitMarker] ∈ rows :=
  ⟨fun r hrr => ⟨"A".data, by rw [List.eq_of_mem_singleton hrr]; rfl⟩,
   List.mem_singleton.mpr rfl,
   by decide,
   fallback_row_content [exTrimmed] []
     (fun r hrr => ⟨"A".data, by rw [List.eq_of_mem_singleton hrr]; rfl⟩)
     (by decide)
     (fun r hrr => by rw [List.eq_of_mem_singleton hrr]; decide)
     (fun h hh => absurd hh (List.not_mem_nil h))
     exTrimmed (List.mem_singleton.mpr rfl) (by decide)⟩

end FastqBLAST
